import Mathlib

/-!
Verification of the mock TikTok creative-report API
(`src/api/index.ts` and `src/mockTikTokServer.ts`).

The development shallowly embeds the two source files.  The process-wide
random source (`Math.random()`, a stream of reals in `[0,1)`) is modelled
as a function `rs : ℕ → ℚ` giving the value of each successive draw,
idealised to rationals; every random-consuming operation threads an
explicit draw counter.  JavaScript runtime behaviour the code relies on
(`JSON.parse`, property access, truthiness, property-key coercion,
`Array.prototype.includes`) is modelled explicitly on a `JsValue` type.
-/

/-- A JavaScript value as produced by `JSON.parse`, extended with
`undefined` (which arises from property access on objects lacking the
property).  Numbers are idealised as exact rationals. -/
inductive JsValue where
  | null
  | bool (b : Bool)
  | num (q : ℚ)
  | str (s : String)
  | arr (elems : List JsValue)
  | obj (fields : List (String × JsValue))
  | undefined

/-- JSON whitespace characters. -/
def isJsonWs (c : Char) : Bool :=
  c = ' ' || c = '\t' || c = '\n' || c = '\r'

/-- Drop leading JSON whitespace. -/
def skipWs : List Char → List Char
  | [] => []
  | c :: cs => if isJsonWs c then skipWs cs else c :: cs

/-- Numeric value of a decimal digit character. -/
def digitVal (c : Char) : ℕ := c.toNat - '0'.toNat

/-- Split a character list into its leading run of decimal digits and the rest. -/
def takeDigits : List Char → List Char × List Char
  | [] => ([], [])
  | c :: cs =>
    if c.isDigit then
      let p := takeDigits cs
      (c :: p.1, p.2)
    else ([], c :: cs)

/-- The natural number denoted by a list of decimal digits (most significant first). -/
def digitsToNat (ds : List Char) : ℕ := ds.foldl (fun a c => a * 10 + digitVal c) 0

/-- Numeric value of a hexadecimal digit character, if it is one. -/
def hexVal (c : Char) : Option ℕ :=
  if '0' ≤ c ∧ c ≤ '9' then some (c.toNat - '0'.toNat)
  else if 'a' ≤ c ∧ c ≤ 'f' then some (c.toNat - 'a'.toNat + 10)
  else if 'A' ≤ c ∧ c ≤ 'F' then some (c.toNat - 'A'.toNat + 10)
  else none

/-- Parse the body of a JSON string literal (the opening quote already
consumed), returning the decoded characters and the remaining input.
Models the escape sequences accepted by `JSON.parse`; a `\uXXXX` escape
denoting an invalid scalar value falls back to `Char.ofNat`'s default.
The fuel argument is an upper bound on the input length. -/
def parseStringBody : ℕ → List Char → Option (List Char × List Char)
  | 0, _ => none
  | _, [] => none
  | fuel + 1, c :: cs =>
    if c = '"' then some ([], cs)
    else if c = '\\' then
      match cs with
      | [] => none
      | e :: cs2 =>
        if e = '"' then
          match parseStringBody fuel cs2 with
          | none => none
          | some (s, r) => some ('"' :: s, r)
        else if e = '\\' then
          match parseStringBody fuel cs2 with
          | none => none
          | some (s, r) => some ('\\' :: s, r)
        else if e = '/' then
          match parseStringBody fuel cs2 with
          | none => none
          | some (s, r) => some ('/' :: s, r)
        else if e = 'b' then
          match parseStringBody fuel cs2 with
          | none => none
          | some (s, r) => some (Char.ofNat 8 :: s, r)
        else if e = 'f' then
          match parseStringBody fuel cs2 with
          | none => none
          | some (s, r) => some (Char.ofNat 12 :: s, r)
        else if e = 'n' then
          match parseStringBody fuel cs2 with
          | none => none
          | some (s, r) => some ('\n' :: s, r)
        else if e = 'r' then
          match parseStringBody fuel cs2 with
          | none => none
          | some (s, r) => some ('\r' :: s, r)
        else if e = 't' then
          match parseStringBody fuel cs2 with
          | none => none
          | some (s, r) => some ('\t' :: s, r)
        else if e = 'u' then
          match cs2 with
          | h1 :: h2 :: h3 :: h4 :: cs3 =>
            match hexVal h1, hexVal h2, hexVal h3, hexVal h4 with
            | some a, some b, some c2, some d =>
              match parseStringBody fuel cs3 with
              | none => none
              | some (s, r) => some (Char.ofNat (((a * 16 + b) * 16 + c2) * 16 + d) :: s, r)
            | _, _, _, _ => none
          | _ => none
        else none
    else if c.toNat < 32 then none
    else
      match parseStringBody fuel cs with
      | none => none
      | some (s, r) => some (c :: s, r)

/-- Parse an optional JSON fraction part (`.digits`). -/
def parseFrac : List Char → Option (ℚ × List Char)
  | '.' :: r =>
    match takeDigits r with
    | ([], _) => none
    | (ds, rest) => some ((digitsToNat ds : ℚ) / (10 : ℚ) ^ ds.length, rest)
  | cs => some (0, cs)

/-- Parse an optional JSON exponent part (`e`/`E`, optional sign, digits). -/
def parseExp : List Char → Option (ℤ × List Char)
  | [] => some (0, [])
  | c :: r =>
    if c = 'e' ∨ c = 'E' then
      let p : ℤ × List Char :=
        match r with
        | '+' :: r2 => (1, r2)
        | '-' :: r2 => (-1, r2)
        | _ => (1, r)
      match takeDigits p.2 with
      | ([], _) => none
      | (ds, rest) => some (p.1 * (digitsToNat ds : ℤ), rest)
    else some (0, c :: r)

/-- Parse a JSON number (`-? int frac? exp?`, no leading zeros). -/
def parseNumber (cs : List Char) : Option (ℚ × List Char) :=
  let p : Bool × List Char :=
    match cs with
    | '-' :: r => (true, r)
    | _ => (false, cs)
  match takeDigits p.2 with
  | ([], _) => none
  | (ds, cs2) =>
    if 1 < ds.length ∧ ds.headD '0' = '0' then none
    else
      match parseFrac cs2 with
      | none => none
      | some (f, cs3) =>
        match parseExp cs3 with
        | none => none
        | some (e, cs4) =>
          let mag : ℚ := ((digitsToNat ds : ℚ) + f) * (10 : ℚ) ^ e
          some (if p.1 then -mag else mag, cs4)

mutual

/-- Parse a JSON value, returning it and the remaining input.
Fuel-indexed recursive-descent model of the grammar accepted by
`JSON.parse`. -/
def parseValue : ℕ → List Char → Option (JsValue × List Char)
  | 0, _ => none
  | fuel + 1, cs =>
    match skipWs cs with
    | [] => none
    | c :: rest =>
      if c = 'n' then
        match rest with
        | 'u' :: 'l' :: 'l' :: r => some (.null, r)
        | _ => none
      else if c = 't' then
        match rest with
        | 'r' :: 'u' :: 'e' :: r => some (.bool true, r)
        | _ => none
      else if c = 'f' then
        match rest with
        | 'a' :: 'l' :: 's' :: 'e' :: r => some (.bool false, r)
        | _ => none
      else if c = '"' then
        match parseStringBody (rest.length + 1) rest with
        | none => none
        | some (s, r) => some (.str (String.mk s), r)
      else if c = '[' then
        match skipWs rest with
        | [] => none
        | d :: r2 =>
          if d = ']' then some (.arr [], r2)
          else
            match parseItems fuel (d :: r2) with
            | none => none
            | some (xs, r3) => some (.arr xs, r3)
      else if c = '\x7b' then
        match skipWs rest with
        | [] => none
        | d :: r2 =>
          if d = '\x7d' then some (.obj [], r2)
          else
            match parseFields fuel (d :: r2) with
            | none => none
            | some (fs, r3) => some (.obj fs, r3)
      else
        match parseNumber (c :: rest) with
        | none => none
        | some (q, r) => some (.num q, r)

/-- Parse the comma-separated items of a non-empty JSON array
(opening bracket already consumed). -/
def parseItems : ℕ → List Char → Option (List JsValue × List Char)
  | 0, _ => none
  | fuel + 1, cs =>
    match parseValue fuel cs with
    | none => none
    | some (v, r) =>
      match skipWs r with
      | [] => none
      | d :: r2 =>
        if d = ',' then
          match parseItems fuel r2 with
          | none => none
          | some (xs, r3) => some (v :: xs, r3)
        else if d = ']' then some ([v], r2)
        else none

/-- Parse the comma-separated members of a non-empty JSON object
(opening brace already consumed). -/
def parseFields : ℕ → List Char → Option (List (String × JsValue) × List Char)
  | 0, _ => none
  | fuel + 1, cs =>
    match skipWs cs with
    | '"' :: r =>
      match parseStringBody (r.length + 1) r with
      | none => none
      | some (k, r1) =>
        match skipWs r1 with
        | ':' :: r2 =>
          match parseValue fuel r2 with
          | none => none
          | some (v, r3) =>
            match skipWs r3 with
            | [] => none
            | d :: r4 =>
              if d = ',' then
                match parseFields fuel r4 with
                | none => none
                | some (fs, r5) => some ((String.mk k, v) :: fs, r5)
              else if d = '\x7d' then some ([(String.mk k, v)], r4)
              else none
        | _ => none
    | _ => none

end

/-- Model of `JSON.parse` on a string: parse one value, allowing
surrounding whitespace and rejecting trailing input. -/
def jsonParse (s : String) : Option JsValue :=
  match parseValue (2 * s.length + 2) s.toList with
  | none => none
  | some (v, rest) => if skipWs rest = [] then some v else none

/-! ## JavaScript runtime semantics used by the handlers -/

/-- JavaScript number-to-string for JSON-derived rationals, in the
fixed-notation range (exponential notation for very large or very small
magnitudes is not modelled; claims never depend on it).  A JSON number
always has a denominator dividing a power of ten, so the decimal
expansion is finite. -/
def jsNumToString (q : ℚ) : String :=
  if q.den = 1 then toString q.num
  else
    match (List.range 65).find? (fun e => 10 ^ e % q.den = 0) with
    | none => toString q.num ++ "/" ++ toString q.den
    | some e =>
      let a : ℕ := q.num.natAbs * (10 ^ e / q.den)
      let ip := a / 10 ^ e
      let fp := a % 10 ^ e
      let fracRev := (Nat.toDigits 10 fp).reverse
      let padded := fracRev ++ List.replicate (e - fracRev.length) '0'
      let stripped := (padded.dropWhile (fun c => c = '0')).reverse
      (if q.num < 0 then "-" else "") ++ toString ip ++
        (if stripped = [] then "" else "." ++ String.mk stripped)

mutual

/-- JavaScript `ToPropertyKey` / `String(·)` coercion of a value used as
a computed object key (`acc[field] = …`, `baseValues[metric]`). -/
def jsToPropKey : JsValue → String
  | .undefined => "undefined"
  | .null => "null"
  | .bool true => "true"
  | .bool false => "false"
  | .num q => jsNumToString q
  | .str s => s
  | .arr xs => jsJoinList xs
  | .obj _ => "[object Object]"

/-- `Array.prototype.join(",")` as used by array-to-string coercion:
elements are coerced recursively, with `null` and `undefined` becoming
the empty string. -/
def jsJoinList : List JsValue → String
  | [] => ""
  | [JsValue.null] => ""
  | [JsValue.undefined] => ""
  | [v] => jsToPropKey v
  | JsValue.null :: rest => "," ++ jsJoinList rest
  | JsValue.undefined :: rest => "," ++ jsJoinList rest
  | v :: rest => jsToPropKey v ++ "," ++ jsJoinList rest

end

/-- JavaScript strict equality between a runtime value and a string
literal, as used by `["material_id", …].includes(field)`: only a string
primitive with the same characters compares equal. -/
def jsStrEq (v : JsValue) (s : String) : Bool :=
  match v with
  | .str t => t = s
  | _ => false

/-- JavaScript truthiness of a value (`if (x)`).  `NaN` is not
representable in the rational idealisation. -/
def jsTruthy : JsValue → Bool
  | .undefined => false
  | .null => false
  | .bool b => b
  | .num q => decide (q ≠ 0)
  | .str s => decide (s ≠ "")
  | .arr _ => true
  | .obj _ => true

/-- `Array.isArray`. -/
def isArrB : JsValue → Bool
  | .arr _ => true
  | _ => false

/-- The elements of an array value (empty for non-arrays). -/
def arrElems : JsValue → List JsValue
  | .arr xs => xs
  | _ => []

/-- An exception thrown during request processing: a `SyntaxError` from
`JSON.parse` (whose platform-dependent message is identified here by the
offending input), an explicit `new Error(msg)`, or a `TypeError` from
the runtime. -/
inductive JsError where
  | syntaxError (input : String)
  | custom (msg : String)
  | typeError (desc : String)

/-- Property access `v.k`: throws a `TypeError` on `null`/`undefined`,
looks the key up on objects (duplicate keys: the last value wins, as in
JavaScript object construction), and yields `undefined` on every other
value. -/
def jsGetProp (v : JsValue) (k : String) : Except JsError JsValue :=
  match v with
  | .undefined => .error (.typeError ("Cannot read properties of undefined (reading " ++ k ++ ")"))
  | .null => .error (.typeError ("Cannot read properties of null (reading " ++ k ++ ")"))
  | .obj fields => .ok ((((fields.reverse).find? (fun p => p.1 = k)).map Prod.snd).getD .undefined)
  | _ => .ok .undefined

/-- The string actually handed to `JSON.parse(x as string)`: an absent
query parameter is `undefined`, which `JSON.parse` coerces to the string
`"undefined"`. -/
def parseArg (v : Option String) : String := v.getD "undefined"

/-- `JSON.parse` on a possibly-absent query parameter, throwing a
`SyntaxError` on failure. -/
def jsJSONParse (v : Option String) : Except JsError JsValue :=
  match jsonParse (parseArg v) with
  | some j => .ok j
  | none => .error (.syntaxError (parseArg v))

/-! ## The core generators (`src/api/index.ts` lines 4–72; the copies in
`src/mockTikTokServer.ts` lines 7–77 are textually identical, so one
embedding models both). -/

/-- The `characters` alphabet of `generateId`. -/
def characters : String := "abcdefghijklmnopqrstuvwxyz0123456789"

/-- JavaScript `String.prototype.charAt`: the one-character string at an
integer index, or the empty string when the index is out of range. -/
def charAt (s : String) (n : ℤ) : String :=
  if 0 ≤ n ∧ n.toNat < s.length then String.singleton (s.toList.getD n.toNat 'a') else ""

/-- `generateId(length)` (`src/api/index.ts` lines 4–11): build a string
by appending, `length` times, `characters.charAt(Math.floor(Math.random()
* characters.length))`.  `rs` is the random stream and `start` the index
of the first draw consumed; the result is paired with the next unused
draw index (one draw per iteration, whether or not `charAt` is in
range). -/
def generateId (rs : ℕ → ℚ) (length : ℕ) (start : ℕ) : String × ℕ :=
  ((List.range length).foldl
    (fun result i => result ++ charAt characters ⌊rs (start + i) * (characters.length : ℚ)⌋) "",
   start + length)

/-- The entries of the static `baseValues` object of `generateMetrics`
(`src/api/index.ts` lines 18–31), in source order. -/
def baseValuesList : List (String × (ℤ × ℤ)) :=
  [("impressions", (1000, 100000)),
   ("clicks", (50, 5000)),
   ("spend", (100, 10000)),
   ("video_watched_2s", (800, 80000)),
   ("video_views_p75", (200, 20000)),
   ("conversion", (10, 1000)),
   ("video_play_actions", (500, 50000)),
   ("video_watched_6s", (400, 40000)),
   ("average_video_play", (3, 15)),
   ("video_views_p25", (600, 60000)),
   ("video_views_p50", (400, 40000)),
   ("video_views_p100", (100, 10000))]

/-- The own-property part of the lookup `baseValues[metric]`: the range
for one of the twelve table names, nothing otherwise. -/
def baseValues (name : String) : Option (ℤ × ℤ) :=
  (baseValuesList.find? (fun p => p.1 = name)).map Prod.snd

/-- The property names every plain object inherits from
`Object.prototype` (all of them bound to truthy values: the built-in
methods, and the `__proto__` accessor whose getter returns
`Object.prototype` itself). -/
def objectPrototypeNames : List String :=
  ["constructor", "hasOwnProperty", "isPrototypeOf", "propertyIsEnumerable",
   "toLocaleString", "toString", "valueOf", "__proto__",
   "__defineGetter__", "__defineSetter__", "__lookupGetter__", "__lookupSetter__"]

/-- The full property lookup `baseValues[metric]` as JavaScript performs
it, prototype chain included: `some (some r)` for an own table entry,
`some none` for a truthy value inherited from `Object.prototype` (whose
destructuring gives `min = max = undefined`), and `none` (`undefined`,
falsy) for every other name. -/
def baseValuesLookup (name : String) : Option (Option (ℤ × ℤ)) :=
  match baseValues name with
  | some r => some (some r)
  | none => if objectPrototypeNames.contains name then some none else none

/-- Defining an own property `k` with value `v` on a record kept as an
ordered association list: an existing key is updated in place, a new key
is appended.  This is the semantics of object-literal members and of
spread (`DefineOwnProperty`), which never consult the prototype
chain. -/
def recordSet {α : Type} (m : List (String × α)) (k : String) (v : α) : List (String × α) :=
  if (m.map Prod.fst).contains k then
    m.map (fun p => if p.1 = k then (k, v) else p)
  else m ++ [(k, v)]

/-- JavaScript assignment `m[k] = v` on a plain object: assigning to the
key `"__proto__"` invokes the accessor setter inherited from
`Object.prototype`, which silently stores nothing when the value is not
an object (all values assigned by this program are strings); every other
key is written as an own property. -/
def jsRecordSet {α : Type} (m : List (String × α)) (k : String) (v : α) : List (String × α) :=
  if k = "__proto__" then m else recordSet m k v

/-- Property lookup on such a record. -/
def recordGet {α : Type} (m : List (String × α)) (k : String) : Option α :=
  (m.find? (fun p => p.1 = k)).map Prod.snd

/-- One iteration of the `requestedMetrics.forEach` loop of
`generateMetrics` (`src/api/index.ts` lines 33–42).  The truthiness test
`if (baseValues[metric])` sees the whole prototype chain: an own table
entry draws once and stores
`Math.floor(Math.random() * (max - min) + min).toString()`; a name
inherited from `Object.prototype` is truthy too, destructures to
`min = max = undefined`, draws once, and stores `"NaN"`; any other name
stores `"0"` without drawing.  All three branches assign through the
`__proto__`-aware `metrics[metric] = …`. -/
def metricsStep (rs : ℕ → ℚ) (st : List (String × String) × ℕ) (metric : String) :
    List (String × String) × ℕ :=
  match baseValuesLookup metric with
  | some (some (mn, mx)) =>
    (jsRecordSet st.1 metric (toString ⌊rs st.2 * ((mx : ℚ) - (mn : ℚ)) + (mn : ℚ)⌋), st.2 + 1)
  | some none => (jsRecordSet st.1 metric "NaN", st.2 + 1)
  | none => (jsRecordSet st.1 metric "0", st.2)

/-- `generateMetrics(requestedMetrics)` (`src/api/index.ts` lines 14–45)
with the random stream and starting draw index made explicit. -/
def generateMetrics (rs : ℕ → ℚ) (start : ℕ) (requestedMetrics : List String) :
    List (String × String) × ℕ :=
  requestedMetrics.foldl (metricsStep rs) ([], start)

/-- The four fixed info field names of `generateMockData`
(`src/api/index.ts` line 63). -/
def fixedInfoNames : List String := ["material_id", "video_id", "page_id", "image_id"]

/-- One iteration of the `infoFields.reduce` loop of `generateMockData`
(`src/api/index.ts` lines 61–68): a field name outside the fixed set gets
a fresh `generateId(24)`, a fixed name is skipped (and draws nothing). -/
def infoStep (rs : ℕ → ℚ) (st : List (String × String) × ℕ) (field : String) :
    List (String × String) × ℕ :=
  if fixedInfoNames.contains field then st
  else
    let g := generateId rs 24 st.2
    (jsRecordSet st.1 field g.1, g.2)

/-- The full `infoFields.reduce(…, {})` accumulator. -/
def infoReduce (rs : ℕ → ℚ) (infoFields : List String) (start : ℕ) :
    List (String × String) × ℕ :=
  infoFields.foldl (infoStep rs) ([], start)

/-- One row of mock data: `metrics` and `info` records. -/
structure Row where
  metrics : List (String × String)
  info : List (String × String)

/-- The row built for one material id (`src/api/index.ts` lines 53–71):
`metrics` first, then the object literal `info` — `material_id`, three
fresh 24-character ids, then the spread of the `reduce` accumulator
(each accumulator entry assigned in order, as JavaScript spread does). -/
def makeRow (rs : ℕ → ℚ) (materialId : String) (infoFields metricsFields : List String)
    (start : ℕ) : Row × ℕ :=
  let ms := generateMetrics rs start metricsFields
  let v := generateId rs 24 ms.2
  let p := generateId rs 24 v.2
  let im := generateId rs 24 p.2
  let acc := infoReduce rs infoFields im.2
  (⟨ms.1,
    acc.1.foldl (fun m kv => recordSet m kv.1 kv.2)
      [("material_id", materialId), ("video_id", v.1), ("page_id", p.1), ("image_id", im.1)]⟩,
   acc.2)

/-- `generateMockData(materialIds, infoFields, metricsFields)`
(`src/api/index.ts` lines 48–72): one row per material id, in input
order, the random stream threaded left to right as `materialIds.map`
evaluates. -/
def generateMockData (rs : ℕ → ℚ) :
    List String → List String → List String → ℕ → List Row × ℕ
  | [], _, _, start => ([], start)
  | materialId :: rest, infoFields, metricsFields, start =>
    let r := makeRow rs materialId infoFields metricsFields start
    let tail := generateMockData rs rest infoFields metricsFields r.2
    (r.1 :: tail.1, tail.2)

/-! ## The generators as invoked by the handlers

The handlers pass the results of `JSON.parse` to `generateMockData`
without checking their shape, so at runtime the arguments are arbitrary
JavaScript values.  The following definitions replay the same source
lines (`src/api/index.ts` lines 14–72) under those dynamic types:
non-array arguments make `.forEach` / `.reduce` throw a `TypeError`, and
element values are coerced to property keys exactly as JavaScript
does. -/

/-- One `forEach` iteration of `generateMetrics` when the requested
metric is an arbitrary JavaScript value: both the `baseValues` lookup
and the `metrics[metric]` assignment coerce it to a property key. -/
def metricsStepJs (rs : ℕ → ℚ) (st : List (String × String) × ℕ) (metric : JsValue) :
    List (String × String) × ℕ :=
  match baseValuesLookup (jsToPropKey metric) with
  | some (some (mn, mx)) =>
    (jsRecordSet st.1 (jsToPropKey metric)
      (toString ⌊rs st.2 * ((mx : ℚ) - (mn : ℚ)) + (mn : ℚ)⌋), st.2 + 1)
  | some none => (jsRecordSet st.1 (jsToPropKey metric) "NaN", st.2 + 1)
  | none => (jsRecordSet st.1 (jsToPropKey metric) "0", st.2)

/-- `generateMetrics` over the elements of the parsed
`metrics_fields` array. -/
def generateMetricsJs (rs : ℕ → ℚ) (start : ℕ) (requested : List JsValue) :
    List (String × String) × ℕ :=
  requested.foldl (metricsStepJs rs) ([], start)

/-- One `reduce` iteration of the info-field loop when the field is an
arbitrary JavaScript value: `includes` uses strict equality (so only the
exact fixed-name strings are skipped), and the assignment coerces the
field to a property key. -/
def infoStepJs (rs : ℕ → ℚ) (st : List (String × JsValue) × ℕ) (field : JsValue) :
    List (String × JsValue) × ℕ :=
  if fixedInfoNames.any (fun n => jsStrEq field n) then st
  else
    let g := generateId rs 24 st.2
    (jsRecordSet st.1 (jsToPropKey field) (.str g.1), g.2)

/-- The info-field `reduce` accumulator over the parsed array. -/
def infoReduceJs (rs : ℕ → ℚ) (fields : List JsValue) (start : ℕ) :
    List (String × JsValue) × ℕ :=
  fields.foldl (infoStepJs rs) ([], start)

/-- One row as the handler builds it: the `material_id` value is the raw
array element from `filtering.material_id` (any JavaScript value). -/
structure RowJs where
  metrics : List (String × String)
  info : List (String × JsValue)

/-- The row construction for one material id under dynamic types.  The
`metrics` property is evaluated first, so a non-array `metrics_fields`
throws before any draw; a non-array `info_fields` throws only after the
metrics and the three fixed ids have consumed their draws.  Errors carry
the draw index at which they were raised. -/
def makeRowJs (rs : ℕ → ℚ) (materialId : JsValue) (infoFields metricsFields : JsValue)
    (start : ℕ) : Except (JsError × ℕ) (RowJs × ℕ) :=
  match metricsFields with
  | .arr ms =>
    let mets := generateMetricsJs rs start ms
    let v := generateId rs 24 mets.2
    let p := generateId rs 24 v.2
    let im := generateId rs 24 p.2
    match infoFields with
    | .arr fs =>
      let acc := infoReduceJs rs fs im.2
      .ok (⟨mets.1,
        acc.1.foldl (fun m kv => recordSet m kv.1 kv.2)
          [("material_id", materialId), ("video_id", .str v.1),
           ("page_id", .str p.1), ("image_id", .str im.1)]⟩,
        acc.2)
    | _ => .error (.typeError "infoFields.reduce is not a function", im.2)
  | _ => .error (.typeError "metricsFields.forEach is not a function", start)

/-- `generateMockData` under dynamic types: one row per element of the
parsed `material_id` array, stopping at the first thrown error. -/
def generateMockDataJs (rs : ℕ → ℚ) :
    List JsValue → JsValue → JsValue → ℕ → Except (JsError × ℕ) (List RowJs × ℕ)
  | [], _, _, start => .ok ([], start)
  | materialId :: rest, infoFields, metricsFields, start =>
    match makeRowJs rs materialId infoFields metricsFields start with
    | .error e => .error e
    | .ok (row, n) =>
      match generateMockDataJs rs rest infoFields metricsFields n with
      | .error e => .error e
      | .ok (rows, n2) => .ok (row :: rows, n2)

/-! ## The HTTP handlers -/

/-- The query parameters the handlers read.  A value of `none` means the
parameter is absent from the query string.  `page` and `page_size` are
destructured (with defaults) but never used; the remaining parameters
(`advertiser_id`, `material_type`, `lifetime`, `start_date`, `end_date`)
are only logged and are omitted. -/
structure Query where
  info_fields : Option String
  metrics_fields : Option String
  filtering : Option String
  page : Option String
  page_size : Option String

/-- The `page_info` object of a success response
(`src/api/index.ts` lines 178–183). -/
structure PageInfo where
  total_number : ℕ
  total_page : ℕ
  page_size : ℕ
  page : ℕ

/-- The `data` envelope of a success response. -/
structure SuccessData where
  list : List RowJs
  page_info : PageInfo

/-- The `data` field of a response: `{}` on errors, the full envelope on
success. -/
inductive RespData where
  | empty
  | full (d : SuccessData)

/-- The `message` field of a response.  The platform-dependent text of a
`SyntaxError`/`TypeError` is identified by its provenance rather than
spelled out; the code's own strings are carried verbatim. -/
inductive RespMessage where
  | str (s : String)
  | syntaxError (input : String)
  | typeError (desc : String)

/-- A JSON response body with its HTTP status. -/
structure Response where
  status : ℕ
  code : ℤ
  message : RespMessage
  request_id : String
  data : RespData

/-- The result of a request: a JSON body or an empty body (OPTIONS). -/
inductive HttpResult where
  | noBody (status : ℕ)
  | json (resp : Response)

/-- The response `message` produced from a caught exception: every
modelled exception is an `Error` instance, so the handler uses its
`message` (`src/api/index.ts` lines 208–213; `src/mockTikTokServer.ts`
lines 193–194 behave identically on these exceptions). -/
def errMsg : JsError → RespMessage
  | .syntaxError s => .syntaxError s
  | .custom s => .str s
  | .typeError s => .typeError s

/-- Lines 145–162 of `src/api/index.ts` (identical to lines 133–150 of
`src/mockTikTokServer.ts`): derive the material-id list from the
`filtering` parameter.  The raw query value is tested for truthiness (an
absent parameter and the empty string are falsy), then parsed, then
`material_id` must be truthy and an array. -/
def extractIdsCore (filtering : Option String) : Except JsError (List JsValue) :=
  match filtering with
  | none => .error (.custom "filtering parameter with material_id array is required")
  | some fs =>
    if fs = "" then .error (.custom "filtering parameter with material_id array is required")
    else
      match jsJSONParse (some fs) with
      | .error e => .error e
      | .ok pf =>
        match jsGetProp pf "material_id" with
        | .error e => .error e
        | .ok midv =>
          if jsTruthy midv && isArrB midv then .ok (arrElems midv)
          else .error (.custom "material_id must be provided as an array in the filtering parameter")

/-- The `api/index.ts` variant additionally parses `filtering`
unconditionally first (line 142, before the `if (filtering)` check), so
an absent or unparseable `filtering` throws a `SyntaxError` there. -/
def extractIds (filtering : Option String) : Except JsError (List JsValue) :=
  match jsJSONParse filtering with
  | .error e => .error e
  | .ok _ => extractIdsCore filtering

/-- The `try` block of the `api/index.ts` handler (lines 130–185):
parse `info_fields`, parse `metrics_fields`, handle `filtering`
(including the unconditional line-142 parse), generate the rows, and
assemble `data`.  Returns the outcome together with the number of random
draws consumed. -/
def apiTry (rs : ℕ → ℚ) (q : Query) : Except JsError SuccessData × ℕ :=
  match jsJSONParse q.info_fields with
  | .error e => (.error e, 0)
  | .ok pInfo =>
    match jsJSONParse q.metrics_fields with
    | .error e => (.error e, 0)
    | .ok pMetrics =>
      match extractIds q.filtering with
      | .error e => (.error e, 0)
      | .ok ids =>
        match generateMockDataJs rs ids pInfo pMetrics 0 with
        | .error (e, n) => (.error e, n)
        | .ok (rows, n) =>
          (.ok ⟨rows, ⟨ids.length, 1, ids.length, 1⟩⟩, n)

/-- The `try` block of the `mockTikTokServer.ts` route handler
(lines 125–173): identical except that there is no unconditional
`filtering` parse. -/
def mockTry (rs : ℕ → ℚ) (q : Query) : Except JsError SuccessData × ℕ :=
  match jsJSONParse q.info_fields with
  | .error e => (.error e, 0)
  | .ok pInfo =>
    match jsJSONParse q.metrics_fields with
    | .error e => (.error e, 0)
    | .ok pMetrics =>
      match extractIdsCore q.filtering with
      | .error e => (.error e, 0)
      | .ok ids =>
        match generateMockDataJs rs ids pInfo pMetrics 0 with
        | .error (e, n) => (.error e, n)
        | .ok (rows, n) =>
          (.ok ⟨rows, ⟨ids.length, 1, ids.length, 1⟩⟩, n)

/-- The full `api/index.ts` handler (lines 74–218): OPTIONS short-circuits
with an empty 200, non-GET methods get a 405 envelope with code 40500,
and otherwise the `try` block's outcome is wrapped — 200/`code 0`/`"OK"`
on success, 400/`code 40001`/the error's message on failure, each with a
fresh 32-character `request_id`. -/
def apiHandler (rs : ℕ → ℚ) (method : String) (q : Query) : HttpResult :=
  if method = "OPTIONS" then .noBody 200
  else if method ≠ "GET" then
    .json ⟨405, 40500, .str "Method not allowed", (generateId rs 32 0).1, .empty⟩
  else
    match apiTry rs q with
    | (.ok d, n) => .json ⟨200, 0, .str "OK", (generateId rs 32 n).1, .full d⟩
    | (.error e, n) => .json ⟨400, 40001, errMsg e, (generateId rs 32 n).1, .empty⟩

/-- The `mockTikTokServer.ts` GET route handler (lines 102–199): the
route only matches GET, and the outcome is wrapped exactly as in the
`api/index.ts` variant. -/
def mockHandler (rs : ℕ → ℚ) (q : Query) : HttpResult :=
  match mockTry rs q with
  | (.ok d, n) => .json ⟨200, 0, .str "OK", (generateId rs 32 n).1, .full d⟩
  | (.error e, n) => .json ⟨400, 40001, errMsg e, (generateId rs 32 n).1, .empty⟩

/-- The `code` field of a JSON result, if there is a body. -/
def respCodeOf : HttpResult → Option ℤ
  | .json r => some r.code
  | .noBody _ => none

/-- Structural well-formedness of a query, as the `api/index.ts` code
actually enforces it: both field lists parse as JSON, the filtering
pipeline yields a material-id list, and either that list is empty or
both field lists parsed to arrays.  (Element types are never checked.) -/
def structOkB (q : Query) : Bool :=
  match jsJSONParse q.info_fields, jsJSONParse q.metrics_fields, extractIds q.filtering with
  | .ok vi, .ok vm, .ok ids => ids.isEmpty || (isArrB vi && isArrB vm)
  | _, _, _ => false

/-! ## Concrete inputs used for evaluations -/

/-- A concrete deterministic random stream (every draw is `0`), used to
evaluate the generators on concrete inputs. -/
def rs0 : ℕ → ℚ := fun _ => 0

/-- A query with valid field lists but no `filtering` parameter. -/
def qNoFiltering : Query := ⟨some "[]", some "[]", none, none, none⟩

/-- A valid query whose `material_id` array is empty. -/
def qEmptyIds : Query := ⟨some "[]", some "[]", some "\x7b\"material_id\":[]\x7d", none, none⟩

/-- A query whose `info_fields` parses to an array containing a number
(not a sequence of strings), with one material id. -/
def qNumericInfo : Query :=
  ⟨some "[1]", some "[]", some "\x7b\"material_id\":[\"m\"]\x7d", none, none⟩

/-- A query whose `info_fields` parses to a plain number (not an array),
with an empty material-id array. -/
def qNonArrayInfo : Query :=
  ⟨some "5", some "[]", some "\x7b\"material_id\":[]\x7d", none, none⟩

/-- The character predicate of the `generateId` contract: lowercase
letter or decimal digit. -/
def isIdChar (c : Char) : Prop := ('a' ≤ c ∧ c ≤ 'z') ∨ ('0' ≤ c ∧ c ≤ '9')

/-! ## Record-operation lemmas -/

theorem recordSet_keys {α : Type} (m : List (String × α)) (k : String) (v : α) :
    (recordSet m k v).map Prod.fst =
      if (m.map Prod.fst).contains k then m.map Prod.fst else m.map Prod.fst ++ [k] := by
  by_cases h : (m.map Prod.fst).contains k
  · simp only [recordSet, if_pos h, List.map_map]
    exact List.map_congr_left fun p _ => by
      by_cases hp : p.1 = k <;> simp [Function.comp, hp]
  · simp [recordSet, if_neg h]

theorem mem_keys_recordSet {α : Type} (m : List (String × α)) (k a : String) (v : α) :
    a ∈ (recordSet m k v).map Prod.fst ↔ a ∈ m.map Prod.fst ∨ a = k := by
  rw [recordSet_keys]
  by_cases h : (m.map Prod.fst).contains k
  · rw [if_pos h]
    have hk : k ∈ m.map Prod.fst := by
      simpa using h
    constructor
    · exact Or.inl
    · rintro (ha | rfl)
      · exact ha
      · exact hk
  · rw [if_neg h]
    simp

theorem nodup_keys_recordSet {α : Type} (m : List (String × α)) (k : String) (v : α)
    (h : (m.map Prod.fst).Nodup) : ((recordSet m k v).map Prod.fst).Nodup := by
  rw [recordSet_keys]
  by_cases hc : (m.map Prod.fst).contains k
  · rwa [if_pos hc]
  · rw [if_neg hc]
    refine List.Nodup.append h (List.nodup_singleton k) ?_
    intro a ha hb
    rw [List.mem_singleton] at hb
    subst hb
    exact absurd (by simpa using ha) (by simpa using hc)

theorem recordGet_nil {α : Type} (k : String) : recordGet ([] : List (String × α)) k = none := rfl

theorem recordGet_cons {α : Type} (p : String × α) (rest : List (String × α)) (k : String) :
    recordGet (p :: rest) k = if p.1 = k then some p.2 else recordGet rest k := by
  by_cases hp : p.1 = k <;> simp [recordGet, List.find?_cons, hp]

theorem recordGet_isSome_iff {α : Type} (m : List (String × α)) (k : String) :
    (recordGet m k).isSome ↔ k ∈ m.map Prod.fst := by
  induction m with
  | nil => simp [recordGet]
  | cons p rest ih =>
    rw [recordGet_cons, List.map_cons]
    by_cases hp : p.1 = k
    · simp [hp]
    · rw [if_neg hp, List.mem_cons]
      simp only [ih]
      constructor
      · exact Or.inr
      · rintro (h | h)
        · exact absurd h.symm hp
        · exact h

theorem recordGet_eq_none {α : Type} (m : List (String × α)) (k : String)
    (h : k ∉ m.map Prod.fst) : recordGet m k = none := by
  rw [← Option.not_isSome_iff_eq_none]
  rw [recordGet_isSome_iff]
  exact h

theorem recordGet_append_left {α : Type} (l1 l2 : List (String × α)) (k : String) (v : α)
    (h : recordGet l1 k = some v) : recordGet (l1 ++ l2) k = some v := by
  induction l1 with
  | nil => simp [recordGet] at h
  | cons p rest ih =>
    rw [List.cons_append, recordGet_cons]
    rw [recordGet_cons] at h
    by_cases hp : p.1 = k
    · rwa [if_pos hp] at h ⊢
    · rw [if_neg hp] at h ⊢
      exact ih h

theorem recordGet_append_right {α : Type} (l1 l2 : List (String × α)) (k : String)
    (h : k ∉ l1.map Prod.fst) : recordGet (l1 ++ l2) k = recordGet l2 k := by
  induction l1 with
  | nil => rfl
  | cons p rest ih =>
    rw [List.cons_append, recordGet_cons]
    have hp : ¬(p.1 = k) := fun he => h (by simp [← he])
    rw [if_neg hp]
    exact ih fun hm => h (by simp [hm])

theorem recordGet_update_self {α : Type} (m : List (String × α)) (k : String) (v : α)
    (hk : k ∈ m.map Prod.fst) :
    recordGet (m.map fun p => if p.1 = k then (k, v) else p) k = some v := by
  induction m with
  | nil => simp at hk
  | cons p rest ih =>
    rw [List.map_cons]
    by_cases hp : p.1 = k
    · rw [if_pos hp, recordGet_cons]
      simp
    · rw [if_neg hp, recordGet_cons, if_neg hp]
      rw [List.map_cons, List.mem_cons] at hk
      rcases hk with h | h
      · exact absurd h.symm hp
      · exact ih h

theorem recordGet_update_other {α : Type} (m : List (String × α)) (k a : String) (v : α)
    (h : a ≠ k) :
    recordGet (m.map fun p => if p.1 = k then (k, v) else p) a = recordGet m a := by
  induction m with
  | nil => rfl
  | cons p rest ih =>
    rw [List.map_cons]
    by_cases hp : p.1 = k
    · rw [if_pos hp, recordGet_cons, recordGet_cons]
      have h1 : ¬((k, v).1 = a) := fun he => h he.symm
      have h2 : ¬(p.1 = a) := by rw [hp]; exact fun he => h he.symm
      rw [if_neg h1, if_neg h2, ih]
    · rw [if_neg hp, recordGet_cons, recordGet_cons, ih]

theorem recordGet_recordSet_self {α : Type} (m : List (String × α)) (k : String) (v : α) :
    recordGet (recordSet m k v) k = some v := by
  by_cases hc : (m.map Prod.fst).contains k
  · rw [recordSet, if_pos hc]
    exact recordGet_update_self m k v (by simpa using hc)
  · rw [recordSet, if_neg hc]
    rw [recordGet_append_right m [(k, v)] k (by simpa using hc)]
    simp [recordGet_cons]

theorem recordGet_recordSet_other {α : Type} (m : List (String × α)) (k a : String) (v : α)
    (h : a ≠ k) : recordGet (recordSet m k v) a = recordGet m a := by
  by_cases hc : (m.map Prod.fst).contains k
  · rw [recordSet, if_pos hc]
    exact recordGet_update_other m k a v h
  · rw [recordSet, if_neg hc]
    by_cases ha : a ∈ m.map Prod.fst
    · obtain ⟨w, hw⟩ := Option.isSome_iff_exists.mp ((recordGet_isSome_iff m a).mpr ha)
      rw [hw]
      exact recordGet_append_left m [(k, v)] a w hw
    · rw [recordGet_append_right m [(k, v)] a ha, recordGet_eq_none m a ha]
      have : ¬((k, v).1 = a) := fun he => h he.symm
      simp [recordGet_cons, recordGet_nil, this]

/-! ## Assignment and lookup semantics lemmas -/

theorem jsRecordSet_proto {α : Type} (m : List (String × α)) (v : α) :
    jsRecordSet m "__proto__" v = m := by
  rw [jsRecordSet, if_pos rfl]

theorem jsRecordSet_ne {α : Type} (m : List (String × α)) (k : String) (v : α)
    (h : ¬(k = "__proto__")) : jsRecordSet m k v = recordSet m k v := by
  rw [jsRecordSet, if_neg h]

theorem mem_keys_jsRecordSet {α : Type} (m : List (String × α)) (k a : String) (v : α) :
    a ∈ (jsRecordSet m k v).map Prod.fst
      ↔ a ∈ m.map Prod.fst ∨ (a = k ∧ ¬(k = "__proto__")) := by
  by_cases hk : k = "__proto__"
  · subst hk
    rw [jsRecordSet_proto]
    constructor
    · exact Or.inl
    · rintro (ha | ⟨_, hc⟩)
      · exact ha
      · exact absurd rfl hc
  · rw [jsRecordSet_ne m k v hk, mem_keys_recordSet]
    constructor
    · rintro (ha | ha)
      · exact Or.inl ha
      · exact Or.inr ⟨ha, hk⟩
    · rintro (ha | ⟨ha, _⟩)
      · exact Or.inl ha
      · exact Or.inr ha

theorem nodup_keys_jsRecordSet {α : Type} (m : List (String × α)) (k : String) (v : α)
    (h : (m.map Prod.fst).Nodup) : ((jsRecordSet m k v).map Prod.fst).Nodup := by
  by_cases hk : k = "__proto__"
  · subst hk
    rwa [jsRecordSet_proto]
  · rw [jsRecordSet_ne m k v hk]
    exact nodup_keys_recordSet m k v h

theorem recordGet_jsRecordSet_self {α : Type} (m : List (String × α)) (k : String) (v : α)
    (hk : ¬(k = "__proto__")) : recordGet (jsRecordSet m k v) k = some v := by
  rw [jsRecordSet_ne m k v hk]
  exact recordGet_recordSet_self m k v

theorem recordGet_jsRecordSet_other {α : Type} (m : List (String × α)) (k a : String) (v : α)
    (h : a ≠ k) : recordGet (jsRecordSet m k v) a = recordGet m a := by
  by_cases hk : k = "__proto__"
  · subst hk
    rw [jsRecordSet_proto]
  · rw [jsRecordSet_ne m k v hk]
    exact recordGet_recordSet_other m k a v h

theorem baseValuesLookup_own (a : String) (r : ℤ × ℤ) (h : baseValues a = some r) :
    baseValuesLookup a = some (some r) := by
  rw [baseValuesLookup, h]

theorem baseValues_ne_proto (a : String) (mn mx : ℤ) (h : baseValues a = some (mn, mx)) :
    ¬(a = "__proto__") := by
  intro he
  subst he
  rw [show baseValues "__proto__" = none from rfl] at h
  exact Option.noConfusion h

theorem baseValuesLookup_none_ne_proto (a : String) (h : baseValuesLookup a = none) :
    ¬(a = "__proto__") := by
  intro he
  subst he
  rw [show baseValuesLookup "__proto__" = some none from rfl] at h
  exact Option.noConfusion h

/-! ## The metrics loop -/

theorem mem_keys_metricsStep (rs : ℕ → ℚ) (st : List (String × String) × ℕ)
    (metric a : String) :
    a ∈ (metricsStep rs st metric).1.map Prod.fst
      ↔ a ∈ st.1.map Prod.fst ∨ (a = metric ∧ ¬(metric = "__proto__")) := by
  rcases hb : baseValuesLookup metric with _ | r
  · simp only [metricsStep, hb]
    exact mem_keys_jsRecordSet st.1 metric a _
  · rcases r with _ | ⟨mn, mx⟩
    · simp only [metricsStep, hb]
      exact mem_keys_jsRecordSet st.1 metric a _
    · simp only [metricsStep, hb]
      exact mem_keys_jsRecordSet st.1 metric a _

theorem nodup_keys_metricsStep (rs : ℕ → ℚ) (st : List (String × String) × ℕ)
    (metric : String) (h : (st.1.map Prod.fst).Nodup) :
    ((metricsStep rs st metric).1.map Prod.fst).Nodup := by
  rcases hb : baseValuesLookup metric with _ | r
  · simp only [metricsStep, hb]
    exact nodup_keys_jsRecordSet st.1 metric _ h
  · rcases r with _ | ⟨mn, mx⟩
    · simp only [metricsStep, hb]
      exact nodup_keys_jsRecordSet st.1 metric _ h
    · simp only [metricsStep, hb]
      exact nodup_keys_jsRecordSet st.1 metric _ h

theorem recordGet_metricsStep_other (rs : ℕ → ℚ) (st : List (String × String) × ℕ)
    (metric a : String) (h : a ≠ metric) :
    recordGet (metricsStep rs st metric).1 a = recordGet st.1 a := by
  rcases hb : baseValuesLookup metric with _ | r
  · simp only [metricsStep, hb]
    exact recordGet_jsRecordSet_other st.1 metric a _ h
  · rcases r with _ | ⟨mn, mx⟩
    · simp only [metricsStep, hb]
      exact recordGet_jsRecordSet_other st.1 metric a _ h
    · simp only [metricsStep, hb]
      exact recordGet_jsRecordSet_other st.1 metric a _ h

theorem mem_keys_metricsFold (rs : ℕ → ℚ) (req : List String) :
    ∀ (st : List (String × String) × ℕ) (a : String),
      a ∈ (req.foldl (metricsStep rs) st).1.map Prod.fst
        ↔ a ∈ st.1.map Prod.fst ∨ (a ∈ req ∧ ¬(a = "__proto__")) := by
  induction req with
  | nil => intro st a; simp
  | cons m rest ih =>
    intro st a
    rw [List.foldl_cons, ih, mem_keys_metricsStep, List.mem_cons]
    constructor
    · rintro ((h | ⟨rfl, hp⟩) | ⟨hr, hp⟩)
      · exact Or.inl h
      · exact Or.inr ⟨Or.inl rfl, hp⟩
      · exact Or.inr ⟨Or.inr hr, hp⟩
    · rintro (h | ⟨(rfl | hr), hp⟩)
      · exact Or.inl (Or.inl h)
      · exact Or.inl (Or.inr ⟨rfl, hp⟩)
      · exact Or.inr ⟨hr, hp⟩

theorem nodup_keys_metricsFold (rs : ℕ → ℚ) (req : List String) :
    ∀ st, (st.1.map Prod.fst).Nodup → ((req.foldl (metricsStep rs) st).1.map Prod.fst).Nodup := by
  induction req with
  | nil => intro st h; simpa
  | cons m rest ih => intro st h; exact ih _ (nodup_keys_metricsStep rs st m h)

theorem recordGet_metricsFold_not_mem (rs : ℕ → ℚ) (req : List String) :
    ∀ st a, a ∉ req →
      recordGet (req.foldl (metricsStep rs) st).1 a = recordGet st.1 a := by
  induction req with
  | nil => intro st a _; rfl
  | cons m rest ih =>
    intro st a ha
    rw [List.foldl_cons, ih _ a (fun h => ha (List.mem_cons_of_mem m h)),
        recordGet_metricsStep_other rs st m a (fun h => ha (h ▸ List.mem_cons_self m rest))]

theorem recordGet_metricsFold_unknown (rs : ℕ → ℚ) (req : List String) (a : String)
    (hb : baseValuesLookup a = none) :
    ∀ st, a ∈ req → recordGet (req.foldl (metricsStep rs) st).1 a = some "0" := by
  induction req with
  | nil => intro st h; simp at h
  | cons m rest ih =>
    intro st hmem
    rw [List.foldl_cons]
    by_cases hr : a ∈ rest
    · exact ih _ hr
    · have ham : a = m := by
        rcases List.mem_cons.mp hmem with h | h
        · exact h
        · exact absurd h hr
      subst ham
      rw [recordGet_metricsFold_not_mem rs rest _ a hr]
      show recordGet (metricsStep rs st a).1 a = some "0"
      simp only [metricsStep, hb]
      exact recordGet_jsRecordSet_self st.1 a "0" (baseValuesLookup_none_ne_proto a hb)

theorem recordGet_metricsFold_known (rs : ℕ → ℚ) (req : List String) (a : String)
    (mn mx : ℤ) (hb : baseValues a = some (mn, mx)) :
    ∀ st, a ∈ req → ∃ j, recordGet (req.foldl (metricsStep rs) st).1 a
      = some (toString ⌊rs j * ((mx : ℚ) - (mn : ℚ)) + (mn : ℚ)⌋) := by
  induction req with
  | nil => intro st h; simp at h
  | cons m rest ih =>
    intro st hmem
    rw [List.foldl_cons]
    by_cases hr : a ∈ rest
    · exact ih _ hr
    · have ham : a = m := by
        rcases List.mem_cons.mp hmem with h | h
        · exact h
        · exact absurd h hr
      subst ham
      refine ⟨st.2, ?_⟩
      rw [recordGet_metricsFold_not_mem rs rest _ a hr]
      show recordGet (metricsStep rs st a).1 a = _
      simp only [metricsStep, baseValuesLookup_own a (mn, mx) hb]
      exact recordGet_jsRecordSet_self st.1 a _ (baseValues_ne_proto a mn mx hb)

theorem baseValues_lt (a : String) (mn mx : ℤ) (h : baseValues a = some (mn, mx)) :
    mn < mx := by
  have hall : ∀ p ∈ baseValuesList, p.2.1 < p.2.2 := by decide
  unfold baseValues at h
  rcases hf : baseValuesList.find? (fun p => p.1 = a) with _ | p
  · rw [hf] at h
    exact Option.noConfusion h
  · rw [hf] at h
    simp only [Option.map_some', Option.some.injEq] at h
    have hlt := hall p (List.mem_of_find?_eq_some hf)
    rw [h] at hlt
    exact hlt

theorem floor_scaled_mem (r : ℚ) (mn mx : ℤ) (h0 : 0 ≤ r) (h1 : r < 1) (hlt : mn < mx) :
    mn ≤ ⌊r * ((mx : ℚ) - (mn : ℚ)) + (mn : ℚ)⌋ ∧ ⌊r * ((mx : ℚ) - (mn : ℚ)) + (mn : ℚ)⌋ < mx := by
  constructor
  · rw [Int.le_floor]
    have h2 : (0 : ℚ) ≤ r * ((mx : ℚ) - (mn : ℚ)) :=
      mul_nonneg h0 (by rw [sub_nonneg]; exact_mod_cast le_of_lt hlt)
    linarith
  · rw [Int.floor_lt]
    have hpos : (0 : ℚ) < (mx : ℚ) - (mn : ℚ) := by
      rw [sub_pos]; exact_mod_cast hlt
    nlinarith

/-- Claim C4 is false as stated: `"constructor"` is not one of the
twelve table names, yet `baseValues["constructor"]` finds the truthy
constructor function inherited from `Object.prototype`, the known-metric
branch runs with `min = max = undefined`, and the stored value is
`"NaN"` — not `"0"`.  `"__proto__"` likewise takes the truthy branch and
then the assignment stores nothing at all. -/
theorem prototype_metric_not_zero :
    baseValues "constructor" = none
    ∧ recordGet (generateMetrics rs0 0 ["constructor"]).1 "constructor" = some "NaN"
    ∧ baseValues "__proto__" = none
    ∧ recordGet (generateMetrics rs0 0 ["__proto__"]).1 "__proto__" = none :=
  ⟨rfl, rfl, rfl, rfl⟩

/-- Claim C4 (amended): every requested metric name whose
`baseValues[name]` lookup is `undefined` — that is, any name that is
neither one of the twelve table names nor a property name inherited from
`Object.prototype` — is mapped by `generateMetrics` to the literal
string `"0"`.  (A name inherited from `Object.prototype` is truthy,
takes the known-metric branch with undefined bounds, and stores `"NaN"`;
for `"__proto__"` the subsequent assignment is a setter no-op and no key
is stored.) -/
theorem generateMetrics_unknown_zero (rs : ℕ → ℚ) (start : ℕ) (names : List String)
    (name : String) (hb : baseValuesLookup name = none) (hmem : name ∈ names) :
    recordGet (generateMetrics rs start names).1 name = some "0" :=
  recordGet_metricsFold_unknown rs names name hb ([], start) hmem

/-- Witness for `generateMetrics_unknown_zero` at a concrete input. -/
theorem generateMetrics_unknown_zero_witness :
    baseValuesLookup "foo" = none ∧ ("foo" : String) ∈ ["impressions", "foo"] ∧
      recordGet (generateMetrics rs0 0 ["impressions", "foo"]).1 "foo" = some "0" :=
  ⟨rfl, by simp,
   generateMetrics_unknown_zero rs0 0 ["impressions", "foo"] "foo" rfl (by simp)⟩

/-- Claim C5: a requested metric name with configured bounds
`{min, max}` is mapped by `generateMetrics` to the decimal string of
`⌊r * (max - min) + min⌋` for a value `r` drawn from the random source,
an integer lying in `[min, max)` (min inclusive, max exclusive). -/
theorem generateMetrics_known_range (rs : ℕ → ℚ) (start : ℕ) (names : List String)
    (name : String) (mn mx : ℤ) (hrs : ∀ i, 0 ≤ rs i ∧ rs i < 1)
    (hb : baseValues name = some (mn, mx)) (hmem : name ∈ names) :
    ∃ r : ℚ, 0 ≤ r ∧ r < 1 ∧
      recordGet (generateMetrics rs start names).1 name
        = some (toString ⌊r * ((mx : ℚ) - (mn : ℚ)) + (mn : ℚ)⌋) ∧
      mn ≤ ⌊r * ((mx : ℚ) - (mn : ℚ)) + (mn : ℚ)⌋ ∧
      ⌊r * ((mx : ℚ) - (mn : ℚ)) + (mn : ℚ)⌋ < mx := by
  obtain ⟨j, hj⟩ := recordGet_metricsFold_known rs names name mn mx hb ([], start) hmem
  obtain ⟨h0, h1⟩ := hrs j
  obtain ⟨hlo, hhi⟩ := floor_scaled_mem (rs j) mn mx h0 h1 (baseValues_lt name mn mx hb)
  exact ⟨rs j, h0, h1, hj, hlo, hhi⟩

/-- Witness for `generateMetrics_known_range` at a concrete input. -/
theorem generateMetrics_known_range_witness :
    (∀ i, 0 ≤ rs0 i ∧ rs0 i < 1) ∧
      ∃ r : ℚ, 0 ≤ r ∧ r < 1 ∧
        recordGet (generateMetrics rs0 0 ["impressions"]).1 "impressions"
          = some (toString ⌊r * (((100000 : ℤ) : ℚ) - ((1000 : ℤ) : ℚ)) + ((1000 : ℤ) : ℚ)⌋) ∧
        (1000 : ℤ) ≤ ⌊r * (((100000 : ℤ) : ℚ) - ((1000 : ℤ) : ℚ)) + ((1000 : ℤ) : ℚ)⌋ ∧
        ⌊r * (((100000 : ℤ) : ℚ) - ((1000 : ℤ) : ℚ)) + ((1000 : ℤ) : ℚ)⌋ < (100000 : ℤ) :=
  ⟨fun i => ⟨le_refl 0, by norm_num [rs0]⟩,
   generateMetrics_known_range rs0 0 ["impressions"] "impressions" 1000 100000
     (fun i => ⟨le_refl 0, by norm_num [rs0]⟩) rfl (by simp)⟩

/-- Claim C6 is false as stated: requesting the metric `"__proto__"`
yields a metrics object that does not have `"__proto__"` as a key — the
assignment `metrics["__proto__"] = …` invokes the inherited accessor
setter and stores nothing. -/
theorem proto_metric_key_missing :
    ("__proto__" : String) ∈ ["__proto__"]
    ∧ ¬(("__proto__" : String)
        ∈ (generateMetrics rs0 0 ["__proto__"]).1.map Prod.fst) := by
  refine ⟨by simp, ?_⟩
  rw [show (generateMetrics rs0 0 ["__proto__"]).1 = [] from rfl]
  simp

/-- Claim C6 (amended): the metrics record's keys are exactly the
requested names other than `"__proto__"` (whose assignment is a silent
setter no-op), with no duplicates; duplicate requests collapse to one
key whose value is the one written at the last occurrence of the
name. -/
theorem generateMetrics_keys_exact (rs : ℕ → ℚ) (start : ℕ) (req : List String) :
    ((generateMetrics rs start req).1.map Prod.fst).Nodup
    ∧ (∀ k, k ∈ (generateMetrics rs start req).1.map Prod.fst
        ↔ (k ∈ req ∧ ¬(k = "__proto__")))
    ∧ ∀ (post : List String) (m : String), m ∉ post →
        recordGet (generateMetrics rs start (req ++ m :: post)).1 m
          = recordGet (generateMetrics rs start (req ++ [m])).1 m := by
  refine ⟨nodup_keys_metricsFold rs req ([], start) (by simp), fun k => ?_, ?_⟩
  · rw [generateMetrics, mem_keys_metricsFold]
    simp
  · intro post m hm
    show recordGet ((req ++ m :: post).foldl (metricsStep rs) ([], start)).1 m = _
    have he : req ++ m :: post = (req ++ [m]) ++ post := by simp
    rw [he, List.foldl_append]
    exact recordGet_metricsFold_not_mem rs post _ m hm

/-- Witness for `generateMetrics_keys_exact` at a concrete input. -/
theorem generateMetrics_keys_exact_witness :
    (("impressions" : String) ∉ ([] : List String)) ∧
      recordGet (generateMetrics rs0 0 (["clicks"] ++ "impressions" :: [])).1 "impressions"
        = recordGet (generateMetrics rs0 0 (["clicks"] ++ ["impressions"])).1 "impressions" :=
  ⟨by simp, (generateMetrics_keys_exact rs0 0 ["clicks"]).2.2 [] "impressions" (by simp)⟩

/-! ## The info-field loop and row construction -/

theorem mem_keys_infoStep (rs : ℕ → ℚ) (st : List (String × String) × ℕ) (field a : String) :
    a ∈ (infoStep rs st field).1.map Prod.fst
      ↔ a ∈ st.1.map Prod.fst
        ∨ (a = field ∧ field ∉ fixedInfoNames ∧ ¬(field = "__proto__")) := by
  by_cases hf : fixedInfoNames.contains field
  · have hm : field ∈ fixedInfoNames := by simpa using hf
    simp only [infoStep, if_pos hf]
    constructor
    · exact Or.inl
    · rintro (h | ⟨_, hnf, _⟩)
      · exact h
      · exact absurd hm hnf
  · have hm : field ∉ fixedInfoNames := by simpa using hf
    simp only [infoStep, if_neg hf]
    rw [mem_keys_jsRecordSet]
    constructor
    · rintro (h | ⟨ha, hp⟩)
      · exact Or.inl h
      · exact Or.inr ⟨ha, hm, hp⟩
    · rintro (h | ⟨ha, _, hp⟩)
      · exact Or.inl h
      · exact Or.inr ⟨ha, hp⟩

theorem nodup_keys_infoStep (rs : ℕ → ℚ) (st : List (String × String) × ℕ) (field : String)
    (h : (st.1.map Prod.fst).Nodup) : ((infoStep rs st field).1.map Prod.fst).Nodup := by
  by_cases hf : fixedInfoNames.contains field
  · simpa only [infoStep, if_pos hf] using h
  · simp only [infoStep, if_neg hf]
    exact nodup_keys_jsRecordSet st.1 field _ h

theorem mem_keys_infoFold (rs : ℕ → ℚ) (fields : List String) :
    ∀ (st : List (String × String) × ℕ) (a : String),
      a ∈ (fields.foldl (infoStep rs) st).1.map Prod.fst
        ↔ a ∈ st.1.map Prod.fst
          ∨ (a ∈ fields ∧ a ∉ fixedInfoNames ∧ ¬(a = "__proto__")) := by
  induction fields with
  | nil => intro st a; simp
  | cons f rest ih =>
    intro st a
    rw [List.foldl_cons, ih, mem_keys_infoStep, List.mem_cons]
    constructor
    · rintro ((h | ⟨rfl, hnf, hp⟩) | ⟨hr, hnf, hp⟩)
      · exact Or.inl h
      · exact Or.inr ⟨Or.inl rfl, hnf, hp⟩
      · exact Or.inr ⟨Or.inr hr, hnf, hp⟩
    · rintro (h | ⟨(rfl | hr), hnf, hp⟩)
      · exact Or.inl (Or.inl h)
      · exact Or.inl (Or.inr ⟨rfl, hnf, hp⟩)
      · exact Or.inr ⟨hr, hnf, hp⟩

theorem nodup_keys_infoFold (rs : ℕ → ℚ) (fields : List String) :
    ∀ st, (st.1.map Prod.fst).Nodup → ((fields.foldl (infoStep rs) st).1.map Prod.fst).Nodup := by
  induction fields with
  | nil => intro st h; simpa
  | cons f rest ih => intro st h; exact ih _ (nodup_keys_infoStep rs st f h)

theorem infoFold_keys_not_fixed (rs : ℕ → ℚ) (fields : List String) (start : ℕ) (a : String)
    (ha : a ∈ (infoReduce rs fields start).1.map Prod.fst) : a ∉ fixedInfoNames := by
  rw [infoReduce, mem_keys_infoFold] at ha
  rcases ha with h | ⟨_, hnf, _⟩
  · simp at h
  · exact hnf

theorem foldl_recordSet_append {α : Type} (entries : List (String × α)) :
    ∀ base : List (String × α),
      (∀ a ∈ entries.map Prod.fst, a ∉ base.map Prod.fst) →
      (entries.map Prod.fst).Nodup →
      entries.foldl (fun m kv => recordSet m kv.1 kv.2) base = base ++ entries := by
  induction entries with
  | nil => intro base _ _; simp
  | cons e rest ih =>
    intro base hdisj hnd
    rw [List.map_cons] at hnd
    obtain ⟨hne, hndr⟩ := List.nodup_cons.mp hnd
    have he1 : e.1 ∉ base.map Prod.fst := hdisj e.1 (by simp)
    have hset : recordSet base e.1 e.2 = base ++ [e] := by
      rw [recordSet, if_neg (by simpa using he1)]
    have hd1 : ∀ a ∈ rest.map Prod.fst, a ∉ (base ++ [e]).map Prod.fst := by
      intro a ha hmem
      rw [List.map_append, List.mem_append] at hmem
      rcases hmem with h | h
      · exact hdisj a (by simp [ha]) h
      · have hae : a = e.1 := by simpa using h
        exact hne (hae ▸ ha)
    rw [List.foldl_cons, hset, ih (base ++ [e]) hd1 hndr, List.append_assoc]
    rfl

theorem info_spread_eq (rs : ℕ → ℚ) (infoFields : List String) (n : ℕ)
    (mid vv pv iv : String) :
    (infoReduce rs infoFields n).1.foldl (fun m kv => recordSet m kv.1 kv.2)
        [("material_id", mid), ("video_id", vv), ("page_id", pv), ("image_id", iv)]
      = [("material_id", mid), ("video_id", vv), ("page_id", pv), ("image_id", iv)]
        ++ (infoReduce rs infoFields n).1 := by
  apply foldl_recordSet_append
  · intro a ha
    have hnf : a ∉ fixedInfoNames := infoFold_keys_not_fixed rs infoFields n a ha
    simpa [fixedInfoNames] using hnf
  · exact nodup_keys_infoFold rs infoFields ([], n) (by simp)

theorem makeRow_info_eq (rs : ℕ → ℚ) (materialId : String)
    (infoFields metricsFields : List String) (start : ℕ) :
    (makeRow rs materialId infoFields metricsFields start).1.info
      = [("material_id", materialId),
         ("video_id", (generateId rs 24 (generateMetrics rs start metricsFields).2).1),
         ("page_id",
          (generateId rs 24 (generateId rs 24 (generateMetrics rs start metricsFields).2).2).1),
         ("image_id",
          (generateId rs 24 (generateId rs 24
            (generateId rs 24 (generateMetrics rs start metricsFields).2).2).2).1)]
        ++ (infoReduce rs infoFields
            (generateId rs 24 (generateId rs 24
              (generateId rs 24 (generateMetrics rs start metricsFields).2).2).2).2).1 :=
  info_spread_eq rs infoFields _ materialId _ _ _

theorem makeRow_material_id (rs : ℕ → ℚ) (materialId : String)
    (infoFields metricsFields : List String) (start : ℕ) :
    recordGet (makeRow rs materialId infoFields metricsFields start).1.info "material_id"
      = some materialId := by
  rw [makeRow_info_eq]
  apply recordGet_append_left
  simp [recordGet_cons]

theorem infoFold_filter (rs : ℕ → ℚ) (fields : List String) :
    ∀ st, fields.foldl (infoStep rs) st
      = (fields.filter fun f => !(fixedInfoNames.contains f)).foldl (infoStep rs) st := by
  induction fields with
  | nil => intro st; rfl
  | cons f rest ih =>
    intro st
    by_cases hf : fixedInfoNames.contains f
    · rw [List.foldl_cons, List.filter_cons]
      simp only [hf, Bool.not_true, if_neg, Bool.false_eq_true, not_false_eq_true]
      have hst : infoStep rs st f = st := by simp only [infoStep, if_pos hf]
      rw [hst]
      exact ih st
    · rw [List.foldl_cons, List.filter_cons]
      simp only [hf, Bool.not_false, if_pos]
      rw [List.foldl_cons]
      exact ih _

theorem infoReduce_filter (rs : ℕ → ℚ) (fields : List String) (start : ℕ) :
    infoReduce rs fields start
      = infoReduce rs (fields.filter fun f => !(fixedInfoNames.contains f)) start :=
  infoFold_filter rs fields ([], start)

/-- Claim C7 is false as stated: a requested info field named
`"__proto__"` never appears in the row — `acc["__proto__"] =
generateId(24)` invokes the inherited accessor setter and stores
nothing, so the row's `info` lacks the requested key. -/
theorem proto_info_field_missing :
    ("__proto__" : String) ∈ ["__proto__"]
    ∧ ("__proto__" : String) ∉ fixedInfoNames
    ∧ recordGet (makeRow rs0 "m" ["__proto__"] [] 0).1.info "__proto__" = none := by
  refine ⟨by simp, by simp [fixedInfoNames], ?_⟩
  rfl

/-- Claim C7 (amended): every row's `info` record contains exactly the
four fixed keys `material_id`, `video_id`, `page_id`, `image_id` plus
every requested info field name that is outside that fixed set and is
not `"__proto__"` (assignment to which is a silent setter no-op); the
fixed fields keep their own values (the input material id and the three
freshly generated ids), and a requested name equal to a fixed name is
skipped by the requested-field loop rather than overwriting the fixed
field. -/
theorem makeRow_info_fields (rs : ℕ → ℚ) (materialId : String)
    (infoFields metricsFields : List String) (start : ℕ) :
    (∀ k, (recordGet (makeRow rs materialId infoFields metricsFields start).1.info k).isSome
        ↔ (k ∈ fixedInfoNames ∨ (k ∈ infoFields ∧ ¬(k = "__proto__"))))
    ∧ recordGet (makeRow rs materialId infoFields metricsFields start).1.info "material_id"
        = some materialId
    ∧ recordGet (makeRow rs materialId infoFields metricsFields start).1.info "video_id"
        = some (generateId rs 24 (generateMetrics rs start metricsFields).2).1
    ∧ recordGet (makeRow rs materialId infoFields metricsFields start).1.info "page_id"
        = some (generateId rs 24
            (generateId rs 24 (generateMetrics rs start metricsFields).2).2).1
    ∧ recordGet (makeRow rs materialId infoFields metricsFields start).1.info "image_id"
        = some (generateId rs 24 (generateId rs 24
            (generateId rs 24 (generateMetrics rs start metricsFields).2).2).2).1
    ∧ makeRow rs materialId infoFields metricsFields start
        = makeRow rs materialId (infoFields.filter fun f => !(fixedInfoNames.contains f))
            metricsFields start := by
  refine ⟨?_, makeRow_material_id rs materialId infoFields metricsFields start,
    ?_, ?_, ?_, ?_⟩
  · intro k
    rw [makeRow_info_eq, recordGet_isSome_iff, List.map_append, List.mem_append,
        infoReduce, mem_keys_infoFold]
    simp only [List.map_nil, List.not_mem_nil, false_or, List.map_cons]
    have htauto : ∀ P Q R S : Prop, (Q ↔ R) → ((Q ∨ (P ∧ ¬R ∧ S)) ↔ (R ∨ (P ∧ S))) := by
      tauto
    exact htauto (k ∈ infoFields) _ _ (¬(k = "__proto__")) (by simp [fixedInfoNames])
  · rw [makeRow_info_eq]
    apply recordGet_append_left
    simp [recordGet_cons]
  · rw [makeRow_info_eq]
    apply recordGet_append_left
    simp [recordGet_cons]
  · rw [makeRow_info_eq]
    apply recordGet_append_left
    simp [recordGet_cons]
  · simp only [makeRow]
    rw [infoReduce_filter rs infoFields]

/-- Claim C1: `generateMockData` returns one row per input material id,
in input order (duplicates preserved, one row per occurrence), and the
row at each position carries that position's input id as its
`info.material_id`. -/
theorem generateMockData_length_order (rs : ℕ → ℚ)
    (materialIds infoFields metricsFields : List String) : ∀ start : ℕ,
    (generateMockData rs materialIds infoFields metricsFields start).1.length
        = materialIds.length
    ∧ (generateMockData rs materialIds infoFields metricsFields start).1.map
        (fun r => recordGet r.info "material_id") = materialIds.map some := by
  induction materialIds with
  | nil => intro start; exact ⟨rfl, rfl⟩
  | cons mid rest ih =>
    intro start
    obtain ⟨hl, hm⟩ := ih (makeRow rs mid infoFields metricsFields start).2
    constructor
    · show ((makeRow rs mid infoFields metricsFields start).1
          :: (generateMockData rs rest infoFields metricsFields
                (makeRow rs mid infoFields metricsFields start).2).1).length = _
      rw [List.length_cons, hl, List.length_cons]
    · show List.map _ ((makeRow rs mid infoFields metricsFields start).1
          :: (generateMockData rs rest infoFields metricsFields
                (makeRow rs mid infoFields metricsFields start).2).1) = _
      simp only [List.map_cons, hm, makeRow_material_id]

/-! ## The identifier generator -/

theorem char_of_characters : ∀ j : ℕ, j < 36 →
    (('a' ≤ characters.toList.getD j 'a' ∧ characters.toList.getD j 'a' ≤ 'z')
      ∨ ('0' ≤ characters.toList.getD j 'a' ∧ characters.toList.getD j 'a' ≤ '9')) := by
  decide

/-- Claim C8: for every `n` and every random stream whose draws lie in
`[0,1)`, `generateId(n)` returns a string of length exactly `n` whose
characters all belong to the 36-character alphabet `a-z0-9`. -/
theorem generateId_length_alphabet (rs : ℕ → ℚ) (hrs : ∀ i, 0 ≤ rs i ∧ rs i < 1)
    (n start : ℕ) :
    (generateId rs n start).1.length = n
    ∧ ∀ c ∈ (generateId rs n start).1.toList, isIdChar c := by
  induction n with
  | zero =>
    refine ⟨rfl, fun c hc => absurd hc ?_⟩
    exact List.not_mem_nil c
  | succ m ih =>
    have hsplit : (generateId rs (m + 1) start).1
        = (generateId rs m start).1
          ++ charAt characters ⌊rs (start + m) * (characters.length : ℚ)⌋ := by
      show (List.range (m + 1)).foldl
          (fun result i => result ++ charAt characters
            ⌊rs (start + i) * (characters.length : ℚ)⌋) "" = _
      rw [List.range_succ, List.foldl_append, List.foldl_cons, List.foldl_nil]
      rfl
    obtain ⟨h0, h1⟩ := hrs (start + m)
    have hj0 : 0 ≤ ⌊rs (start + m) * (characters.length : ℚ)⌋ := by
      apply Int.le_floor.mpr
      push_cast
      have hle : (0 : ℚ) ≤ (characters.length : ℚ) := by positivity
      exact mul_nonneg h0 hle
    have hj1 : ⌊rs (start + m) * (characters.length : ℚ)⌋ < 36 := by
      apply Int.floor_lt.mpr
      have hlen : (characters.length : ℚ) = 36 := by
        norm_num [show characters.length = 36 from rfl]
      rw [hlen]
      push_cast
      nlinarith
    have hjn : (⌊rs (start + m) * (characters.length : ℚ)⌋).toNat < 36 := by omega
    have hch : charAt characters ⌊rs (start + m) * (characters.length : ℚ)⌋
        = String.singleton (characters.toList.getD
            (⌊rs (start + m) * (characters.length : ℚ)⌋).toNat 'a') := by
      rw [charAt, if_pos]
      exact ⟨hj0, hjn⟩
    constructor
    · rw [hsplit, String.length_append, ih.1, hch]
      rfl
    · intro c hc
      rw [hsplit] at hc
      have hc2 : c ∈ (generateId rs m start).1.data
          ++ (charAt characters ⌊rs (start + m) * (characters.length : ℚ)⌋).data := by
        rw [← String.data_append]
        exact hc
      rcases List.mem_append.mp hc2 with h | h
      · exact ih.2 c h
      · rw [hch] at h
        have hcc : c = characters.toList.getD
            (⌊rs (start + m) * (characters.length : ℚ)⌋).toNat 'a' := by
          simpa [String.singleton] using h
        rw [hcc]
        exact char_of_characters _ hjn

/-- Witness for `generateId_length_alphabet` at a concrete input. -/
theorem generateId_length_alphabet_witness :
    (∀ i, 0 ≤ rs0 i ∧ rs0 i < 1) ∧
      ((generateId rs0 5 0).1.length = 5
       ∧ ∀ c ∈ (generateId rs0 5 0).1.toList, isIdChar c) :=
  ⟨fun i => ⟨le_refl 0, by norm_num [rs0]⟩,
   generateId_length_alphabet rs0 (fun i => ⟨le_refl 0, by norm_num [rs0]⟩) 5 0⟩

/-! ## Handler-level claims -/

/-- Claim C2 (code bug in `src/api/index.ts`): with `filtering` absent
and both field lists parsing successfully, the unconditional line-142
`JSON.parse(filtering)` coerces `undefined` to the string `"undefined"`
and throws a `SyntaxError` before the dedicated missing-`filtering`
check is reached, so the `api/index.ts` response carries the platform's
JSON-parse message — not the message the claim requires (the dedicated
`throw` at line 161 is unreachable).  The `mockTikTokServer.ts` handler,
which lacks the line-142 parse, does produce the required message. -/
theorem filtering_absent_message : ∀ rs : ℕ → ℚ,
    (∃ r : Response, apiHandler rs "GET" qNoFiltering = .json r ∧ r.status = 400
      ∧ r.code = 40001 ∧ r.message = .syntaxError "undefined"
      ∧ r.message ≠ .str "filtering parameter with material_id array is required")
    ∧ (∃ r : Response, mockHandler rs qNoFiltering = .json r ∧ r.status = 400
      ∧ r.code = 40001
      ∧ r.message = .str "filtering parameter with material_id array is required") := by
  intro rs
  constructor
  · refine ⟨_, rfl, rfl, rfl, rfl, ?_⟩
    intro h
    exact RespMessage.noConfusion h
  · exact ⟨_, rfl, rfl, rfl, rfl⟩

/-- Claim C10: when `filtering` parses to an object whose `material_id`
field is the empty array (and `info_fields` and `metrics_fields` parse
to arrays), validation passes — `[]` is truthy and `Array.isArray`
accepts it — and the handler answers success: HTTP 200, `code 0`,
`data.list = []`, and `page_info` with `total_number = 0`,
`total_page = 1`, `page_size = 0`, `page = 1`. -/
theorem empty_material_id_success (rs : ℕ → ℚ) (q : Query) (vi vm pf : JsValue)
    (hvi : jsJSONParse q.info_fields = .ok vi) (hvia : isArrB vi = true)
    (hvm : jsJSONParse q.metrics_fields = .ok vm) (hvma : isArrB vm = true)
    (hpf : jsJSONParse q.filtering = .ok pf)
    (hmid : jsGetProp pf "material_id" = .ok (JsValue.arr [])) :
    apiHandler rs "GET" q
      = .json ⟨200, 0, .str "OK", (generateId rs 32 0).1, .full ⟨[], ⟨0, 1, 0, 1⟩⟩⟩ := by
  rcases hqf : q.filtering with _ | fs
  · rw [hqf] at hpf
    exact Except.noConfusion
      (show (Except.error (JsError.syntaxError "undefined") : Except JsError JsValue)
          = .ok pf from hpf)
  · rw [hqf] at hpf
    have hfs : ¬(fs = "") := by
      intro he
      rw [he] at hpf
      exact Except.noConfusion
        (show (Except.error (JsError.syntaxError "") : Except JsError JsValue)
            = .ok pf from hpf)
    have hextract : extractIds q.filtering = .ok [] := by
      rw [hqf]
      simp only [extractIds, extractIdsCore, hpf, if_neg hfs, hmid]
      rfl
    have htry : apiTry rs q = (.ok ⟨[], ⟨0, 1, 0, 1⟩⟩, 0) := by
      simp only [apiTry, hvi, hvm, hextract]
      rfl
    have hfinal : apiHandler rs "GET" q
        = (match apiTry rs q with
           | (.ok d, n) =>
             HttpResult.json ⟨200, 0, .str "OK", (generateId rs 32 n).1, .full d⟩
           | (.error e, n) =>
             HttpResult.json ⟨400, 40001, errMsg e, (generateId rs 32 n).1, .empty⟩) := rfl
    rw [hfinal, htry]

/-- Witness for `empty_material_id_success` at a concrete input. -/
theorem empty_material_id_success_witness :
    jsJSONParse qEmptyIds.info_fields = .ok (JsValue.arr []) ∧
      isArrB (JsValue.arr []) = true ∧
      jsJSONParse qEmptyIds.metrics_fields = .ok (JsValue.arr []) ∧
      jsJSONParse qEmptyIds.filtering
        = .ok (JsValue.obj [("material_id", JsValue.arr [])]) ∧
      jsGetProp (JsValue.obj [("material_id", JsValue.arr [])]) "material_id"
        = .ok (JsValue.arr []) ∧
      apiHandler rs0 "GET" qEmptyIds
        = .json ⟨200, 0, .str "OK", (generateId rs0 32 0).1, .full ⟨[], ⟨0, 1, 0, 1⟩⟩⟩ :=
  ⟨rfl, rfl, rfl, rfl, rfl,
   empty_material_id_success rs0 qEmptyIds (JsValue.arr []) (JsValue.arr [])
     (JsValue.obj [("material_id", JsValue.arr [])]) rfl rfl rfl rfl rfl rfl⟩

theorem generateMockDataJs_length (rs : ℕ → ℚ) (inf mets : JsValue) (ids : List JsValue) :
    ∀ start rows n,
      generateMockDataJs rs ids inf mets start = .ok (rows, n) → rows.length = ids.length := by
  induction ids with
  | nil =>
    intro start rows n h
    have h2 : (Except.ok ([], start) : Except (JsError × ℕ) (List RowJs × ℕ))
        = .ok (rows, n) := h
    injection h2 with h3
    injection h3 with h4 h5
    rw [← h4]
    rfl
  | cons mid rest ih =>
    intro start rows n h
    rw [generateMockDataJs] at h
    split at h
    · exact Except.noConfusion h
    · rename_i row n1 heq
      split at h
      · exact Except.noConfusion h
      · rename_i rows2 n2 heq2
        injection h with h3
        injection h3 with h4 h5
        rw [← h4, List.length_cons, List.length_cons, ih n1 rows2 n2 heq2]

/-- Claim C9: every successful response's `page_info` equals the
degenerate single page `{total_number = |M|, total_page = 1,
page_size = |M|, page = 1}` where `|M|` is the number of material ids
(equal to the length of `data.list`), and the values of the `page` and
`page_size` query parameters never influence either handler. -/
theorem page_info_degenerate :
    (∀ (rs : ℕ → ℚ) (q : Query) (d : SuccessData) (n : ℕ),
        apiTry rs q = (.ok d, n)
        → d.page_info = ⟨d.list.length, 1, d.list.length, 1⟩)
    ∧ (∀ (rs : ℕ → ℚ) (method : String) (q : Query) (p ps : Option String),
        apiHandler rs method { q with page := p, page_size := ps } = apiHandler rs method q)
    ∧ (∀ (rs : ℕ → ℚ) (q : Query) (p ps : Option String),
        mockHandler rs { q with page := p, page_size := ps } = mockHandler rs q) := by
  refine ⟨?_, fun rs method q p ps => rfl, fun rs q p ps => rfl⟩
  intro rs q d n h
  rw [apiTry] at h
  split at h
  · injection h with h1 h2
    exact Except.noConfusion h1
  · split at h
    · injection h with h1 h2
      exact Except.noConfusion h1
    · split at h
      · injection h with h1 h2
        exact Except.noConfusion h1
      · rename_i vi hvi vm hvm ids hids
        split at h
        · injection h with h1 h2
          exact Except.noConfusion h1
        · rename_i rows2 n2 hgen
          injection h with h1 h2
          injection h1 with h3
          rw [← h3]
          have hlen := generateMockDataJs_length rs _ _ ids 0 rows2 n2 hgen
          rw [hlen]

/-- Witness for `page_info_degenerate` at a concrete input. -/
theorem page_info_degenerate_witness :
    apiTry rs0 qEmptyIds = (.ok ⟨[], ⟨0, 1, 0, 1⟩⟩, 0) ∧
      (⟨[], ⟨0, 1, 0, 1⟩⟩ : SuccessData).page_info
        = ⟨(⟨[], ⟨0, 1, 0, 1⟩⟩ : SuccessData).list.length, 1,
           (⟨[], ⟨0, 1, 0, 1⟩⟩ : SuccessData).list.length, 1⟩ :=
  ⟨rfl, page_info_degenerate.1 rs0 qEmptyIds ⟨[], ⟨0, 1, 0, 1⟩⟩ 0 rfl⟩

theorem makeRowJs_arr_ok (rs : ℕ → ℚ) (mid : JsValue) (fs ms : List JsValue) (start : ℕ) :
    ∃ rn, makeRowJs rs mid (.arr fs) (.arr ms) start = .ok rn :=
  ⟨_, rfl⟩

theorem gmdJs_arr_ok (rs : ℕ → ℚ) (fs ms : List JsValue) (ids : List JsValue) :
    ∀ start, ∃ rows n, generateMockDataJs rs ids (.arr fs) (.arr ms) start = .ok (rows, n) := by
  induction ids with
  | nil => intro start; exact ⟨[], start, rfl⟩
  | cons mid rest ih =>
    intro start
    obtain ⟨⟨row, n1⟩, hmk⟩ := makeRowJs_arr_ok rs mid fs ms start
    obtain ⟨rows, n2, hrec⟩ := ih n1
    refine ⟨row :: rows, n2, ?_⟩
    rw [generateMockDataJs, hmk]
    simp only [hrec]

theorem gmdJs_nonarr_fails (rs : ℕ → ℚ) (inf mets mid : JsValue) (rest : List JsValue)
    (start : ℕ) (h : isArrB inf = false ∨ isArrB mets = false) :
    ∃ e n, generateMockDataJs rs (mid :: rest) inf mets start = .error (e, n) := by
  cases mets with
  | arr ms =>
    have hinf : isArrB inf = false := by
      rcases h with h2 | h2
      · exact h2
      · simp [isArrB] at h2
    cases inf with
    | arr fs => simp [isArrB] at hinf
    | null => exact ⟨_, _, rfl⟩
    | bool b => exact ⟨_, _, rfl⟩
    | num q => exact ⟨_, _, rfl⟩
    | str s => exact ⟨_, _, rfl⟩
    | obj flds => exact ⟨_, _, rfl⟩
    | undefined => exact ⟨_, _, rfl⟩
  | null => exact ⟨_, _, rfl⟩
  | bool b => exact ⟨_, _, rfl⟩
  | num q => exact ⟨_, _, rfl⟩
  | str s => exact ⟨_, _, rfl⟩
  | obj flds => exact ⟨_, _, rfl⟩
  | undefined => exact ⟨_, _, rfl⟩

theorem isArrB_true_iff (v : JsValue) : isArrB v = true ↔ ∃ xs, v = .arr xs := by
  cases v <;> simp [isArrB]

/-- Claim C3 is false on the code: `info_fields = "[1]"` parses to an
array containing a number — not a sequence of strings — yet the request
succeeds with `code 0` (the numeric field is silently coerced to the
property key `"1"`); and `info_fields = "5"` does not parse to an array
at all, yet with an empty `material_id` list the request still succeeds
with `code 0`, because the row builder that would have thrown is never
invoked. -/
theorem field_shape_counterexample :
    respCodeOf (apiHandler rs0 "GET" qNumericInfo) = some 0
    ∧ respCodeOf (apiHandler rs0 "GET" qNonArrayInfo) = some 0 :=
  ⟨rfl, rfl⟩

/-- Claim C3 (amended): a request succeeds (`code 0`) exactly when
`info_fields` and `metrics_fields` parse as JSON, the filtering pipeline
yields a material-id list, and either that list is empty or both parsed
values are arrays; otherwise the response carries `code 40001`.  In
particular a JSON-parse failure is always rejected, a non-array shape is
rejected only when at least one material id is present, and the element
types of the arrays are never checked. -/
theorem field_shape_validation : ∀ (rs : ℕ → ℚ) (q : Query),
    (respCodeOf (apiHandler rs "GET" q) = some 0 ↔ structOkB q = true)
    ∧ (structOkB q = false → respCodeOf (apiHandler rs "GET" q) = some 40001) := by
  intro rs q
  have hfinal : apiHandler rs "GET" q
      = (match apiTry rs q with
         | (.ok d, n) =>
           HttpResult.json ⟨200, 0, .str "OK", (generateId rs 32 n).1, .full d⟩
         | (.error e, n) =>
           HttpResult.json ⟨400, 40001, errMsg e, (generateId rs 32 n).1, .empty⟩) := rfl
  rcases hvi : jsJSONParse q.info_fields with e | vi
  · have htry : apiTry rs q = (.error e, 0) := by
      simp only [apiTry, hvi]
    have hstruct : structOkB q = false := by
      simp only [structOkB, hvi]
    rw [hfinal, htry, hstruct]
    simp [respCodeOf]
  rcases hvm : jsJSONParse q.metrics_fields with e | vm
  · have htry : apiTry rs q = (.error e, 0) := by
      simp only [apiTry, hvi, hvm]
    have hstruct : structOkB q = false := by
      simp only [structOkB, hvi, hvm]
    rw [hfinal, htry, hstruct]
    simp [respCodeOf]
  rcases hex : extractIds q.filtering with e | ids
  · have htry : apiTry rs q = (.error e, 0) := by
      simp only [apiTry, hvi, hvm, hex]
    have hstruct : structOkB q = false := by
      simp only [structOkB, hvi, hvm, hex]
    rw [hfinal, htry, hstruct]
    simp [respCodeOf]
  have hstruct : structOkB q = (ids.isEmpty || (isArrB vi && isArrB vm)) := by
    simp only [structOkB, hvi, hvm, hex]
  cases ids with
  | nil =>
    have htry : apiTry rs q = (.ok ⟨[], ⟨0, 1, 0, 1⟩⟩, 0) := by
      simp only [apiTry, hvi, hvm, hex]
      rfl
    rw [hfinal, htry, hstruct]
    simp [respCodeOf]
  | cons mid rest =>
    by_cases harr : isArrB vi = true ∧ isArrB vm = true
    · obtain ⟨h1, h2⟩ := harr
      obtain ⟨fs, rfl⟩ := (isArrB_true_iff vi).mp h1
      obtain ⟨ms, rfl⟩ := (isArrB_true_iff vm).mp h2
      obtain ⟨rows, n2, hgen⟩ := gmdJs_arr_ok rs fs ms (mid :: rest) 0
      have htry : apiTry rs q
          = (.ok ⟨rows, ⟨(mid :: rest).length, 1, (mid :: rest).length, 1⟩⟩, n2) := by
        simp only [apiTry, hvi, hvm, hex, hgen]
      rw [hfinal, htry, hstruct]
      simp [respCodeOf, isArrB]
    · have hone : isArrB vi = false ∨ isArrB vm = false := by
        by_cases b1 : isArrB vi = true
        · right
          by_cases b2 : isArrB vm = true
          · exact absurd ⟨b1, b2⟩ harr
          · exact Bool.not_eq_true _ ▸ b2
        · left
          exact Bool.not_eq_true _ ▸ b1
      obtain ⟨e, n2, hgen⟩ := gmdJs_nonarr_fails rs vi vm mid rest 0 hone
      have htry : apiTry rs q = (.error e, n2) := by
        simp only [apiTry, hvi, hvm, hex, hgen]
      rw [hfinal, htry, hstruct]
      rcases hone with h1 | h1 <;> simp [respCodeOf, h1]

/-- Witness for `field_shape_validation` at a concrete input. -/
theorem field_shape_validation_witness :
    structOkB qNoFiltering = false
    ∧ respCodeOf (apiHandler rs0 "GET" qNoFiltering) = some 40001 :=
  ⟨rfl, (field_shape_validation rs0 qNoFiltering).2 rfl⟩
